import Mathlib

/-!
Shallow embedding of the audio turn-taking and playback-scheduling engine of
`src/hooks/useLiveAPI.ts`.  That file carries three variants of the hook,
separated by document markers:

* variant 1 (lines 1 to 373): playback scheduling, turn-based mic muting and
  control-message suppression (`ignoringNextTurnRef`); modelled in
  namespace `V1`;
* variant 2 (lines 374 to 684): the same scheduling and muting logic without
  the suppression flag — its `ended` listener, `turnComplete` handler and
  `onaudioprocess` callback coincide with variant 1's on the fields both
  variants share;
* the speed variant (lines 685 to 968): playback scheduling with a
  per-segment playback rate sampled from `audioSpeedRef` at enqueue time;
  modelled in namespace `Speed`.

Output-clock instants and durations are rationals (the code reads the real
valued `AudioContext.currentTime`).  Transcript text is abstracted to a
numeric identifier: no property below depends on the characters of a
transcription, only on whether the `onTranscriptionUpdate` callback fires.
Each `onmessage` invocation, each `ended` callback, each captured frame and
each UI action is one atomic step, matching the single-threaded browser
event loop the code runs on.
-/

/-- A transcript event surfaced to the `onTranscriptionUpdate` callback:
`modelText t` is `onTranscriptionUpdate with an output transcription`,
`userText t` an input transcription.  `t` abstracts the text payload. -/
inductive Evt where
  | modelText (t : ℕ)
  | userText (t : ℕ)
deriving DecidableEq

/-- One decoded audio chunk (`audioBuffer` after `decodeAudioData`); only its
duration enters the scheduling logic. -/
structure Chunk where
  duration : ℚ
deriving DecidableEq

namespace V1

/-- One scheduled `AudioBufferSourceNode` of variant 1:
`source.start(nextStartTimeRef.current)` fixes its start instant, and it then
occupies `start .. start + duration` of output-clock time. -/
structure Source where
  start : ℚ
  duration : ℚ
deriving DecidableEq

/-- An inbound `LiveServerMessage` as the variant-1 `onmessage` handler reads
it: the `serverContent.turnComplete` and `serverContent.interrupted` flags,
the optional output and input transcriptions, and the optional audio payload
`serverContent.modelTurn.parts[0].inlineData.data` (already decoded to its
duration). -/
structure Msg where
  turnComplete : Bool
  outputTranscription : Option ℕ
  inputTranscription : Option ℕ
  audioData : Option Chunk
  interrupted : Bool
deriving DecidableEq

/-- The mutable refs and state of the variant-1 hook that the claims concern:
`nextStartTimeRef`, `activeSourcesRef` (in insertion order; sources end in
FIFO order), `processingModelTurnRef`, `ignoringNextTurnRef`, the `isMuted`
React state (the mic gate: `track.enabled` is its negation), `isPlaying`, and
the `volume` React state. -/
structure State where
  nextStartTime : ℚ
  activeSources : List Source
  processingModelTurn : Bool
  ignoringNextTurn : Bool
  isMuted : Bool
  isPlaying : Bool
  volume : ℚ
deriving DecidableEq

/-- The state right after `connect` succeeds: cursor at 0, no sources, flags
clear, mic unmuted (`setMediaMute(false)` runs on connect). -/
def initState : State := ⟨0, [], false, false, false, false, 0⟩

/-- Lines 249 to 297: the audio branch of `onmessage` when not suppressed.
Mutes the mic (`setMediaMute(true)`), marks the model turn in progress, sets
`isPlaying`, clamps the cursor to `max(nextStartTime, ctx.currentTime)`,
starts the source at the clamped cursor and advances the cursor by the
chunk's duration. -/
def scheduleChunk (s : State) (now : ℚ) (c : Chunk) : State :=
  let start := max s.nextStartTime now
  { s with
    isMuted := true
    processingModelTurn := true
    isPlaying := true
    activeSources := s.activeSources ++ [⟨start, c.duration⟩]
    nextStartTime := start + c.duration }

/-- Lines 83 to 98, `stopAudioPlayback`: stop and clear every active source,
reset the time cursor to `outputAudioContext.currentTime`, clear
`processingModelTurnRef` and `isPlaying`.  (The cursor reset is guarded by
the output context existing; the model is the connected state.) -/
def stopAudioPlayback (s : State) (now : ℚ) : State :=
  { s with
    activeSources := []
    nextStartTime := now
    processingModelTurn := false
    isPlaying := false }

/-- Lines 110 to 117, `sendControlMessage`: set `ignoringNextTurnRef` before
transmitting the hidden instruction, so the model's verbal acknowledgment is
discarded. -/
def sendControlMessage (s : State) : State :=
  { s with ignoringNextTurn := true }

/-- Lines 207 to 313, the variant-1 `onmessage` handler, in the code's order:

1. on `turnComplete`, clear `processingModelTurnRef` and `ignoringNextTurnRef`;
2. when not ignoring, surface the output transcription, else the input
   transcription, to `onTranscriptionUpdate`;
3. on audio: if ignoring, discard the chunk and return from the handler
   (skipping the remaining steps); otherwise schedule it via the audio branch;
4. on `interrupted`, run `stopAudioPlayback` and `setMediaMute(false)`;
5. on `turnComplete`, if no source is active, `setMediaMute(false)`.

Returns the new state and the transcript events emitted. -/
def onmessage (s : State) (now : ℚ) (m : Msg) : State × List Evt :=
  let s1 : State :=
    if m.turnComplete then
      { s with processingModelTurn := false, ignoringNextTurn := false }
    else s
  let evts : List Evt :=
    if s1.ignoringNextTurn then []
    else
      match m.outputTranscription with
      | some t => [Evt.modelText t]
      | none =>
        match m.inputTranscription with
        | some t => [Evt.userText t]
        | none => []
  match m.audioData with
  | some c =>
      if s1.ignoringNextTurn then (s1, evts)
      else
        let s2 := scheduleChunk s1 now c
        let s3 := if m.interrupted then
            { stopAudioPlayback s2 now with isMuted := false }
          else s2
        let s4 := if m.turnComplete then
            (if s3.activeSources = [] then { s3 with isMuted := false } else s3)
          else s3
        (s4, evts)
  | none =>
      let s3 := if m.interrupted then
          { stopAudioPlayback s1 now with isMuted := false }
        else s1
      let s4 := if m.turnComplete then
          (if s3.activeSources = [] then { s3 with isMuted := false } else s3)
        else s3
      (s4, evts)

/-- Lines 273 to 292, the `ended` listener of a source: delete the finished
source (the earliest-scheduled one, the head of the FIFO list); if the set
became empty, clear `isPlaying` and, when the model turn is no longer in
progress, `setMediaMute(false)`. -/
def onended (s : State) : State :=
  let rest := s.activeSources.tail
  if rest = [] then
    let s' := { s with activeSources := rest, isPlaying := false }
    if s'.processingModelTurn then s' else { s' with isMuted := false }
  else { s with activeSources := rest }

/-- Lines 341 to 359, `toggleMute`: while sources are active or playing, the
button is an interrupt — `stopAudioPlayback` then `setMediaMute(false)`;
otherwise it toggles the mic gate. -/
def toggleMute (s : State) (now : ℚ) : State :=
  if s.activeSources ≠ [] ∨ s.isPlaying = true then
    { stopAudioPlayback s now with isMuted := false }
  else
    { s with isMuted := !s.isMuted }

/-- Lines 37 to 71, `cleanup` (the body of `disconnect`): stop every source,
reset all refs and state. -/
def cleanup (s : State) : State :=
  { s with
    activeSources := []
    isPlaying := false
    isMuted := false
    volume := 0
    nextStartTime := 0
    processingModelTurn := false
    ignoringNextTurn := false }

/-- Math.sqrt over the rationals, modelled through the integer square root;
only whether the volume gets updated matters to the properties below, never
its exact value. -/
def ratSqrt (q : ℚ) : ℚ := (Nat.sqrt (q.num.toNat * q.den) : ℚ) / (q.den : ℚ)

/-- Lines 191 to 193: root mean square of a captured frame's samples. -/
def rmsOf (samples : List ℚ) : ℚ :=
  ratSqrt ((samples.map fun x => x * x).sum / (samples.length : ℚ))

/-- One outbound transmission `session.sendRealtimeInput` with a media
payload (the PCM blob built from the frame's samples). -/
structure Outbound where
  media : List ℚ
deriving DecidableEq

/-- Lines 187 to 202, `processor.onaudioprocess`: build the PCM blob, compute
the frame's RMS, update the volume display only while the capture track is
enabled (the gate open), and send the blob to the session unconditionally.
Returns the new state and the outbound transmissions of this frame. -/
def onaudioprocess (s : State) (samples : List ℚ) : State × List Outbound :=
  let rms := rmsOf samples
  let s' := if s.isMuted then s else { s with volume := min (rms * 5) 1 }
  (s', [⟨samples⟩])

/-- The events that can reach the variant-1 state: an inbound message at a
given output-clock instant, the `ended` callback of the earliest source, a
captured frame, the mute/interrupt button, `sendControlMessage`, and
`disconnect`. -/
inductive Ev where
  | message (now : ℚ) (m : Msg)
  | ended
  | frame (samples : List ℚ)
  | toggle (now : ℚ)
  | control
  | disconnect
deriving DecidableEq

/-- One atomic step of the hook under an event. -/
def stepEv (s : State) (e : Ev) : State :=
  match e with
  | .message now m => (onmessage s now m).1
  | .ended => onended s
  | .frame samples => (onaudioprocess s samples).1
  | .toggle now => toggleMute s now
  | .control => sendControlMessage s
  | .disconnect => cleanup s

/-- States reachable from the connected initial state by any event sequence. -/
inductive Reachable : State → Prop where
  | init : Reachable initState
  | step {s : State} (e : Ev) : Reachable s → Reachable (stepEv s e)

/-- A message carrying only an audio chunk of the given duration. -/
def audioMsg (d : ℚ) : Msg := ⟨false, none, none, some ⟨d⟩, false⟩

/-- A message carrying only the `turnComplete` signal. -/
def turnCompleteMsg : Msg := ⟨true, none, none, none, false⟩

/-- A message carrying only the `interrupted` signal. -/
def interruptedMsg : Msg := ⟨false, none, none, none, true⟩

/-- A message carrying only an input transcription: the evidence of a genuine
new user utterance inbound. -/
def userMsg (t : ℕ) : Msg := ⟨false, none, some t, none, false⟩

/-- A message carrying only an output transcription. -/
def modelMsg (t : ℕ) : Msg := ⟨false, some t, none, none, false⟩

/-- Process a list of timed inbound messages, collecting every transcript
event emitted along the way. -/
def runMsgs (s : State) (ms : List (ℚ × Msg)) : State × List Evt :=
  match ms with
  | [] => (s, [])
  | (now, m) :: rest =>
      let p := onmessage s now m
      let q := runMsgs p.1 rest
      (q.1, p.2 ++ q.2)

/-- Process a list of audio-only messages: each pair is the arrival instant
and the chunk duration. -/
def runAudio (s : State) (evs : List (ℚ × ℚ)) : State :=
  match evs with
  | [] => s
  | (now, d) :: rest => runAudio (onmessage s now (audioMsg d)).1 rest

/-- Closed form of the schedule the audio branch produces from cursor `c`:
each segment starts at `max cursor now` and the cursor advances by its
duration. -/
def scheduleList (c : ℚ) (evs : List (ℚ × ℚ)) : List Source :=
  match evs with
  | [] => []
  | (now, d) :: rest =>
      let st := max c now
      ⟨st, d⟩ :: scheduleList (st + d) rest

/-- Closed form of the cursor after a list of audio-only messages. -/
def finalCursor (c : ℚ) (evs : List (ℚ × ℚ)) : ℚ :=
  match evs with
  | [] => c
  | (now, d) :: rest => finalCursor (max c now + d) rest

/-- No two consecutive scheduled segments overlap: each one's end is at or
before the next one's start. -/
def noOverlapB : List Source → Bool
  | [] => true
  | [_] => true
  | a :: b :: rest => decide (a.start + a.duration ≤ b.start) && noOverlapB (b :: rest)

/-- Consecutive scheduled segments are gapless: each one's end is exactly the
next one's start. -/
def zeroGapB : List Source → Bool
  | [] => true
  | [_] => true
  | a :: b :: rest => decide (a.start + a.duration = b.start) && zeroGapB (b :: rest)

/-- Prompt arrival: every chunk arrives at or before the instant the cursor
has reached, so no segment finds the play-head already past it. -/
def promptB (c : ℚ) : List (ℚ × ℚ) → Bool
  | [] => true
  | (now, d) :: rest => decide (now ≤ c) && promptB (max c now + d) rest

end V1

namespace Speed

/-- One scheduled source of the speed variant: its `playbackRate.value` is
fixed to the speed sampled at enqueue time, and it occupies
`duration / rate` of output-clock time from `start`. -/
structure Source where
  start : ℚ
  duration : ℚ
  rate : ℚ
deriving DecidableEq

/-- An inbound message as the speed-variant `onmessage` handler reads it
(this variant has no suppression flag and no `turnComplete` handling). -/
structure Msg where
  outputTranscription : Option ℕ
  inputTranscription : Option ℕ
  audioData : Option Chunk
  interrupted : Bool
deriving DecidableEq

/-- The speed-variant refs the claims concern: `nextStartTimeRef`,
`activeSourcesRef`, `audioSpeedRef` and the `volume` state. -/
structure State where
  nextStartTime : ℚ
  activeSources : List Source
  audioSpeed : ℚ
  volume : ℚ
deriving DecidableEq

/-- Lines 718 to 720, the `useEffect` on `audioSpeed`: a change of the speed
setting only rewrites `audioSpeedRef.current`. -/
def setSpeed (s : State) (v : ℚ) : State :=
  { s with audioSpeed := v }

/-- Lines 854 to 905, the speed-variant `onmessage` handler: surface the
output else input transcription; on audio, clamp the cursor to
`max(nextStartTime, ctx.currentTime)`, read `currentSpeed` from
`audioSpeedRef`, start a source with that playback rate at the clamped
cursor and advance the cursor by `duration / currentSpeed`; on `interrupted`,
stop and clear every source and reset the cursor to 0. -/
def onmessage (s : State) (now : ℚ) (m : Msg) : State × List Evt :=
  let evts : List Evt :=
    match m.outputTranscription with
    | some t => [Evt.modelText t]
    | none =>
      match m.inputTranscription with
      | some t => [Evt.userText t]
      | none => []
  let s1 : State :=
    match m.audioData with
    | some c =>
        let start := max s.nextStartTime now
        let speed := s.audioSpeed
        { s with
          activeSources := s.activeSources ++ [⟨start, c.duration, speed⟩]
          nextStartTime := start + c.duration / speed }
    | none => s
  let s2 : State :=
    if m.interrupted then { s1 with activeSources := [], nextStartTime := 0 } else s1
  (s2, evts)

/-- A speed-variant message carrying only an audio chunk. -/
def audioMsg (d : ℚ) : Msg := ⟨none, none, some ⟨d⟩, false⟩

/-- A speed-variant message carrying only the `interrupted` signal. -/
def interruptedMsg : Msg := ⟨none, none, none, true⟩

end Speed

namespace V1

/-- An audio-only message while not suppressing is exactly the audio branch:
no transcript event, state updated by `scheduleChunk`. -/
theorem onmessage_audioMsg (s : State) (now d : ℚ) (h : s.ignoringNextTurn = false) :
    onmessage s now (audioMsg d) = (scheduleChunk s now ⟨d⟩, []) := by
  simp [onmessage, audioMsg, h]

theorem runAudio_cons (s : State) (now d : ℚ) (rest : List (ℚ × ℚ)) :
    runAudio s ((now, d) :: rest) = runAudio (onmessage s now (audioMsg d)).1 rest := rfl

/-- The run of audio-only messages from a non-suppressing state: the sources
are the old ones followed by the closed-form schedule from the old cursor,
the cursor lands on the closed-form final cursor, and suppression stays off. -/
theorem runAudio_spec (evs : List (ℚ × ℚ)) :
    ∀ s : State, s.ignoringNextTurn = false →
      (runAudio s evs).activeSources = s.activeSources ++ scheduleList s.nextStartTime evs ∧
      (runAudio s evs).nextStartTime = finalCursor s.nextStartTime evs ∧
      (runAudio s evs).ignoringNextTurn = false := by
  induction evs with
  | nil => intro s h; simp [runAudio, scheduleList, finalCursor, h]
  | cons p rest ih =>
      intro s h
      obtain ⟨now, d⟩ := p
      rw [runAudio_cons, onmessage_audioMsg s now d h]
      have h2 : (scheduleChunk s now ⟨d⟩).ignoringNextTurn = false := by
        simp [scheduleChunk, h]
      obtain ⟨ha, hb, hc⟩ := ih (scheduleChunk s now ⟨d⟩) h2
      refine ⟨?_, ?_, hc⟩
      · rw [ha]; simp [scheduleChunk, scheduleList]
      · rw [hb]; simp [scheduleChunk, finalCursor]

theorem scheduleList_head_start (evs : List (ℚ × ℚ)) (c : ℚ) (a : Source)
    (rest : List Source) (h : scheduleList c evs = a :: rest) : c ≤ a.start := by
  match evs with
  | [] => simp [scheduleList] at h
  | (now, d) :: tl =>
      simp only [scheduleList, List.cons.injEq] at h
      rw [← h.1]
      exact le_max_left c now

theorem scheduleList_noOverlap (evs : List (ℚ × ℚ)) :
    ∀ c : ℚ, noOverlapB (scheduleList c evs) = true := by
  induction evs with
  | nil => intro c; simp [scheduleList, noOverlapB]
  | cons p tl ih =>
      intro c
      obtain ⟨now, d⟩ := p
      simp only [scheduleList]
      cases htl : scheduleList (max c now + d) tl with
      | nil => simp [noOverlapB]
      | cons b rest =>
          have hb : max c now + d ≤ b.start := scheduleList_head_start tl _ b rest htl
          have hrec := ih (max c now + d)
          rw [htl] at hrec
          simp only [noOverlapB, Bool.and_eq_true, decide_eq_true_eq]
          exact ⟨hb, hrec⟩

theorem scheduleList_head_start_eq (evs : List (ℚ × ℚ)) (c : ℚ) (a : Source)
    (rest : List Source) (hp : promptB c evs = true)
    (h : scheduleList c evs = a :: rest) : a.start = c := by
  match evs with
  | [] => simp [scheduleList] at h
  | (now, d) :: tl =>
      simp only [promptB, Bool.and_eq_true, decide_eq_true_eq] at hp
      simp only [scheduleList, List.cons.injEq] at h
      rw [← h.1, max_eq_left hp.1]

theorem scheduleList_zeroGap (evs : List (ℚ × ℚ)) :
    ∀ c : ℚ, promptB c evs = true → zeroGapB (scheduleList c evs) = true := by
  induction evs with
  | nil => intro c _; simp [scheduleList, zeroGapB]
  | cons p tl ih =>
      intro c hp
      obtain ⟨now, d⟩ := p
      simp only [promptB, Bool.and_eq_true, decide_eq_true_eq] at hp
      simp only [scheduleList]
      cases htl : scheduleList (max c now + d) tl with
      | nil => simp [zeroGapB]
      | cons b rest =>
          have hb : b.start = max c now + d :=
            scheduleList_head_start_eq tl _ b rest hp.2 htl
          have hrec := ih (max c now + d) hp.2
          rw [htl] at hrec
          simp only [zeroGapB, Bool.and_eq_true, decide_eq_true_eq]
          exact ⟨hb.symm, hrec⟩

end V1

/-- C1 counterexample: enqueue a 1-second chunk at output-clock instant 0
and a second 1-second chunk at instant 5.  The first segment ends at 1 but
the second is scheduled at `max(5, 1) = 5`: the schedule the code produces
for this sequence has a 4-second gap, so the universally quantified
zero-gap part of the claim is false. -/
theorem c1_counterexample :
    (V1.runAudio V1.initState [(0, 1), (5, 1)]).activeSources
        = [⟨0, 1⟩, ⟨5, 1⟩] ∧
    V1.zeroGapB (V1.runAudio V1.initState [(0, 1), (5, 1)]).activeSources = false := by
  constructor
  · norm_num [V1.runAudio, V1.onmessage, V1.audioMsg, V1.scheduleChunk, V1.initState]
  · norm_num [V1.runAudio, V1.onmessage, V1.audioMsg, V1.scheduleChunk, V1.initState,
      V1.zeroGapB]

/-- C1 (amended): every enqueued segment is scheduled to start at
`max(now, next_free_instant)` and the cursor then advances by the segment's
duration (divided by its playback rate in the speed variant); consequently no
two segments ever overlap in played time, and consecutive segments have zero
scheduled gap whenever every chunk arrives no later than the instant the
cursor has reached — a chunk arriving after the previous audio has ended
starts at the arrival instant instead, leaving a gap. -/
theorem c1_scheduling_amended :
    (∀ (s : V1.State) (now d : ℚ), s.ignoringNextTurn = false →
        (V1.onmessage s now (V1.audioMsg d)).1.activeSources
            = s.activeSources ++ [⟨max s.nextStartTime now, d⟩] ∧
        (V1.onmessage s now (V1.audioMsg d)).1.nextStartTime
            = max s.nextStartTime now + d) ∧
    (∀ evs : List (ℚ × ℚ),
        V1.noOverlapB (V1.runAudio V1.initState evs).activeSources = true) ∧
    (∀ evs : List (ℚ × ℚ), V1.promptB 0 evs = true →
        V1.zeroGapB (V1.runAudio V1.initState evs).activeSources = true) ∧
    (∀ (t : Speed.State) (now d : ℚ),
        (Speed.onmessage t now (Speed.audioMsg d)).1.activeSources
            = t.activeSources ++ [⟨max t.nextStartTime now, d, t.audioSpeed⟩] ∧
        (Speed.onmessage t now (Speed.audioMsg d)).1.nextStartTime
            = max t.nextStartTime now + d / t.audioSpeed) := by
  refine ⟨?_, ?_, ?_, ?_⟩
  · intro s now d h
    rw [V1.onmessage_audioMsg s now d h]
    constructor <;> simp [V1.scheduleChunk]
  · intro evs
    obtain ⟨ha, _, _⟩ := V1.runAudio_spec evs V1.initState rfl
    rw [ha]
    simpa [V1.initState] using V1.scheduleList_noOverlap evs 0
  · intro evs hp
    obtain ⟨ha, _, _⟩ := V1.runAudio_spec evs V1.initState rfl
    rw [ha]
    simpa [V1.initState] using V1.scheduleList_zeroGap evs 0 hp
  · intro t now d
    constructor <;> simp [Speed.onmessage, Speed.audioMsg]

/-- Sanity: prompt arrival is satisfiable — two chunks arriving at instant 0
are prompt, and the schedule the code produces for them is gapless. -/
theorem prompt_gapless_example :
    V1.promptB 0 [(0, 1), (0, 2)] = true ∧
    V1.zeroGapB (V1.runAudio V1.initState [(0, 1), (0, 2)]).activeSources = true := by
  constructor
  · norm_num [V1.promptB]
  · norm_num [V1.runAudio, V1.onmessage, V1.audioMsg, V1.scheduleChunk, V1.initState,
      V1.zeroGapB]

/-- C2 counterexample: in the speed variant the interrupted handler resets
`nextStartTimeRef` to 0, not to the output clock's current time.  Flushing at
instant 5 leaves the cursor at 0, which is not 5. -/
theorem c2_counterexample :
    (Speed.onmessage ⟨10, [⟨0, 10, 1⟩], 1, 0⟩ 5 Speed.interruptedMsg).1.nextStartTime = 0 ∧
    (0 : ℚ) ≠ 5 := by
  constructor
  · simp [Speed.onmessage, Speed.interruptedMsg]
  · norm_num

/-- C2 (amended): after a flush the set of queued and in-flight segments is
empty (the stopped sources produce no further audible output);
`stopAudioPlayback` resets the next-free instant to the output clock's
current time, while the speed variant's interrupted handler resets it to 0
instead. -/
theorem c2_flush_amended :
    (∀ (s : V1.State) (now : ℚ),
        (V1.stopAudioPlayback s now).activeSources = [] ∧
        (V1.stopAudioPlayback s now).nextStartTime = now ∧
        (V1.stopAudioPlayback s now).isPlaying = false ∧
        (V1.stopAudioPlayback s now).processingModelTurn = false) ∧
    (∀ (s : V1.State) (now : ℚ),
        (V1.onmessage s now V1.interruptedMsg).1.activeSources = [] ∧
        (V1.onmessage s now V1.interruptedMsg).1.nextStartTime = now ∧
        (V1.onmessage s now V1.interruptedMsg).1.isMuted = false) ∧
    (∀ (t : Speed.State) (now : ℚ),
        (Speed.onmessage t now Speed.interruptedMsg).1.activeSources = [] ∧
        (Speed.onmessage t now Speed.interruptedMsg).1.nextStartTime = 0) := by
  refine ⟨?_, ?_, ?_⟩
  · intro s now
    refine ⟨rfl, rfl, rfl, rfl⟩
  · intro s now
    refine ⟨?_, ?_, ?_⟩ <;>
      simp [V1.onmessage, V1.interruptedMsg, V1.stopAudioPlayback]
  · intro t now
    constructor <;> simp [Speed.onmessage, Speed.interruptedMsg]

/-- C3 counterexample: enqueue a 10-second chunk at instant 0 (cursor moves
to 10) and flush at instant 1: the cursor drops from 10 to 1, so the
next-free instant is not monotonically non-decreasing across flush. -/
theorem c3_counterexample :
    (V1.runAudio V1.initState [(0, 10)]).nextStartTime = 10 ∧
    (V1.stopAudioPlayback (V1.runAudio V1.initState [(0, 10)]) 1).nextStartTime = 1 ∧
    ¬ (10 : ℚ) ≤ 1 := by
  refine ⟨?_, ?_, by norm_num⟩
  · norm_num [V1.runAudio, V1.onmessage, V1.audioMsg, V1.scheduleChunk, V1.initState]
  · simp [V1.stopAudioPlayback]

/-- C3 (amended): across enqueue operations the next-free instant is
non-decreasing (each enqueued segment of non-negative duration starts no
earlier than the arrival instant and leaves the cursor no smaller); a flush,
however, resets the cursor to the output clock's current instant — 0 in the
speed variant — which can move it backwards. -/
theorem c3_cursor_amended :
    (∀ (s : V1.State) (now d : ℚ), s.ignoringNextTurn = false → 0 ≤ d →
        s.nextStartTime ≤ (V1.onmessage s now (V1.audioMsg d)).1.nextStartTime ∧
        ∀ src ∈ (V1.onmessage s now (V1.audioMsg d)).1.activeSources,
          src ∈ s.activeSources ∨ now ≤ src.start) ∧
    (∀ (s : V1.State) (now : ℚ), (V1.stopAudioPlayback s now).nextStartTime = now) ∧
    (∀ (t : Speed.State) (now : ℚ),
        (Speed.onmessage t now Speed.interruptedMsg).1.nextStartTime = 0) := by
  refine ⟨?_, fun s now => rfl, ?_⟩
  · intro s now d h hd
    rw [V1.onmessage_audioMsg s now d h]
    constructor
    · simp only [V1.scheduleChunk]
      calc s.nextStartTime ≤ max s.nextStartTime now := le_max_left _ _
        _ ≤ max s.nextStartTime now + d := le_add_of_nonneg_right hd
    · intro src hsrc
      simp only [V1.scheduleChunk, List.mem_append, List.mem_singleton] at hsrc
      rcases hsrc with h1 | h2
      · exact Or.inl h1
      · right
        rw [h2]
        exact le_max_right _ _
  · intro t now
    simp [Speed.onmessage, Speed.interruptedMsg]

namespace V1

/-- The echo-suppression invariant: whenever agent audio is queued or playing
(the turn is AiSpeaking), the mic gate is closed. -/
def micInv (s : State) : Prop := s.activeSources ≠ [] → s.isMuted = true

/-- Every atomic step of the variant-1 hook preserves the echo-suppression
invariant. -/
theorem micInv_step (s : State) (e : Ev) (h : micInv s) : micInv (stepEv s e) := by
  cases e with
  | message now m =>
      rcases m with ⟨tc, ot, it, ad, ir⟩
      unfold micInv at h ⊢
      cases ad <;> cases tc <;> cases ir <;> cases hig : s.ignoringNextTurn <;>
        simp_all [stepEv, onmessage, scheduleChunk, stopAudioPlayback] <;>
        split_ifs <;> simp_all
  | ended =>
      unfold micInv at h ⊢
      simp only [stepEv, onended]
      split_ifs <;> intro hne <;>
        (simp_all; try (cases hsrc : s.activeSources <;> simp_all))
  | frame samples =>
      unfold micInv at h ⊢
      simp only [stepEv, onaudioprocess]
      split_ifs <;> intro hne <;> simp_all
  | toggle now =>
      unfold micInv at h ⊢
      simp only [stepEv, toggleMute]
      split_ifs <;> intro hne <;> simp_all [stopAudioPlayback]
  | control =>
      unfold micInv at h ⊢
      simpa [stepEv, sendControlMessage] using h
  | disconnect =>
      unfold micInv at h ⊢
      simp [stepEv, cleanup]

/-- The echo-suppression invariant holds in every reachable state. -/
theorem micInv_reachable (s : State) (h : Reachable s) : micInv s := by
  induction h with
  | init => intro hne; simp [initState] at hne
  | step e _ ih => exact micInv_step _ e ih

end V1

/-- C4: in every reachable state of the variant-1 hook, if agent audio is
queued or playing then the mic gate is closed; an explicit interruption
empties the queue and reopens the gate in the same atomic step, so the
invariant holds through it as well. -/
theorem c4_mic_gate_invariant :
    (∀ s : V1.State, V1.Reachable s → s.activeSources ≠ [] → s.isMuted = true) ∧
    (∀ (s : V1.State) (now : ℚ),
        (V1.onmessage s now V1.interruptedMsg).1.activeSources = [] ∧
        (V1.onmessage s now V1.interruptedMsg).1.isMuted = false) := by
  constructor
  · exact fun s h => V1.micInv_reachable s h
  · intro s now
    constructor <;> simp [V1.onmessage, V1.interruptedMsg, V1.stopAudioPlayback]

/-- Sanity: a reachable state with agent audio queued exists (so the C4
invariant is not vacuous), and in it the mic gate is indeed closed. -/
theorem reachable_aiSpeaking_example :
    V1.Reachable (V1.stepEv V1.initState (V1.Ev.message 0 (V1.audioMsg 1))) ∧
    (V1.stepEv V1.initState (V1.Ev.message 0 (V1.audioMsg 1))).activeSources ≠ [] ∧
    (V1.stepEv V1.initState (V1.Ev.message 0 (V1.audioMsg 1))).isMuted = true := by
  refine ⟨V1.Reachable.step _ V1.Reachable.init, ?_, ?_⟩ <;>
    norm_num [V1.stepEv, V1.onmessage, V1.audioMsg, V1.scheduleChunk, V1.initState]

/-- C5: on the non-interrupt paths the mic is re-enabled only when the queue
has drained and the reply is complete.  The `ended` listener never unmutes
while the model turn is still in progress (queue drain alone is not enough),
and unmutes exactly when the queue became empty with the turn finished; the
`turnComplete` handler unmutes exactly when the queue is already empty, and
itself marks the reply complete. -/
theorem c5_unmute_needs_drain_and_complete :
    (∀ s : V1.State, s.processingModelTurn = true →
        (V1.onended s).isMuted = s.isMuted) ∧
    (∀ s : V1.State, s.isMuted = true →
        ((V1.onended s).isMuted = false ↔
          (s.activeSources.tail = [] ∧ s.processingModelTurn = false))) ∧
    (∀ (s : V1.State) (now : ℚ), s.isMuted = true →
        ((V1.onmessage s now V1.turnCompleteMsg).1.isMuted = false ↔
          s.activeSources = [])) ∧
    (∀ (s : V1.State) (now : ℚ),
        (V1.onmessage s now V1.turnCompleteMsg).1.processingModelTurn = false) := by
  refine ⟨?_, ?_, ?_, ?_⟩
  · intro s hp
    simp only [V1.onended]
    split_ifs <;> simp_all
  · intro s hm
    simp only [V1.onended]
    split_ifs <;> simp_all
  · intro s now hm
    simp only [V1.onmessage, V1.turnCompleteMsg]
    split_ifs <;> simp_all
  · intro s now
    simp only [V1.onmessage, V1.turnCompleteMsg]
    split_ifs <;> simp_all

/-- Sanity: draining the queue while the model turn is still in progress
leaves the mic muted even though the queue became empty. -/
theorem drain_alone_keeps_muted_example :
    (V1.onended ⟨3, [⟨0, 3⟩], true, false, true, true, 0⟩).activeSources = [] ∧
    (V1.onended ⟨3, [⟨0, 3⟩], true, false, true, true, 0⟩).isMuted = true := by
  constructor <;> simp [V1.onended]

/-- C6 counterexample: a frame processed while the mic gate is closed is
still transmitted to the session (the claim says it never is), and the
volume display is not updated from it (the claim says the loudness is still
computed for visualization). -/
theorem c6_counterexample :
    (V1.onaudioprocess ⟨0, [], true, false, true, false, 0⟩ [1, 1, 1, 1]).2
        = [⟨[1, 1, 1, 1]⟩] ∧
    (V1.onaudioprocess ⟨0, [], true, false, true, false, 0⟩ [1, 1, 1, 1]).1.volume = 0 := by
  constructor <;> simp [V1.onaudioprocess]

/-- C6 (amended): every captured frame is passed to
`session.sendRealtimeInput` regardless of the gate — echo suppression relies
on the disabled capture track delivering silent samples, not on withholding
transmission — and the loudness display is updated only while the gate is
open. -/
theorem c6_frame_amended :
    ∀ (s : V1.State) (samples : List ℚ),
      (V1.onaudioprocess s samples).2 = [⟨samples⟩] ∧
      (V1.onaudioprocess s samples).1.volume =
        (if s.isMuted = true then s.volume else min (V1.rmsOf samples * 5) 1) ∧
      (V1.onaudioprocess s samples).1.isMuted = s.isMuted ∧
      (V1.onaudioprocess s samples).1.activeSources = s.activeSources := by
  intro s samples
  refine ⟨rfl, ?_, ?_, ?_⟩ <;> simp only [V1.onaudioprocess] <;> split_ifs <;> simp_all

namespace V1

/-- While suppressing and before any `turnComplete`, one message emits no
transcript event, keeps the suppression flag set, and schedules no new
audio (the sources are unchanged, or emptied by an interruption). -/
theorem onmessage_ignoring (s : State) (now : ℚ) (m : Msg)
    (hs : s.ignoringNextTurn = true) (hm : m.turnComplete = false) :
    (onmessage s now m).2 = [] ∧
    (onmessage s now m).1.ignoringNextTurn = true ∧
    ((onmessage s now m).1.activeSources = s.activeSources ∨
      (onmessage s now m).1.activeSources = []) := by
  rcases m with ⟨tc, ot, it, ad, ir⟩
  simp only at hm
  subst hm
  cases ad <;> cases ir <;> simp_all [onmessage, stopAudioPlayback]

/-- The single-message suppression lemma, extended over a whole run of
messages none of which signals `turnComplete`. -/
theorem runMsgs_ignoring (ms : List (ℚ × Msg)) :
    ∀ s : State, s.ignoringNextTurn = true →
      (∀ p ∈ ms, (Prod.snd p).turnComplete = false) →
      (runMsgs s ms).2 = [] ∧
      (runMsgs s ms).1.ignoringNextTurn = true ∧
      ((runMsgs s ms).1.activeSources = s.activeSources ∨
        (runMsgs s ms).1.activeSources = []) := by
  induction ms with
  | nil => intro s hs _; exact ⟨rfl, hs, Or.inl rfl⟩
  | cons p rest ih =>
      intro s hs hall
      obtain ⟨now, m⟩ := p
      have hm : m.turnComplete = false := hall (now, m) (List.mem_cons_self _ _)
      obtain ⟨h1, h2, h3⟩ := onmessage_ignoring s now m hs hm
      have hrest : ∀ q ∈ rest, (Prod.snd q).turnComplete = false :=
        fun q hq => hall q (List.mem_cons_of_mem _ hq)
      obtain ⟨g1, g2, g3⟩ := ih (onmessage s now m).1 h2 hrest
      refine ⟨?_, g2, ?_⟩
      · simp [runMsgs, h1, g1]
      · rcases h3 with h3 | h3 <;> rcases g3 with g3 | g3 <;> simp_all [runMsgs]

end V1

/-- C7: after `sendControlMessage` the suppression flag is set, and for any
run of inbound messages none of which signals the reply complete, zero
transcript events are surfaced, the flag stays set, and no audio segment is
scheduled (the active sources are at most flushed by an interruption) — a
reply of pure acknowledgment text and audio is invisible. -/
theorem c7_control_suppression (s : V1.State) (ms : List (ℚ × V1.Msg))
    (h : ∀ p ∈ ms, (Prod.snd p).turnComplete = false) :
    (V1.sendControlMessage s).ignoringNextTurn = true ∧
    (V1.runMsgs (V1.sendControlMessage s) ms).2 = [] ∧
    (V1.runMsgs (V1.sendControlMessage s) ms).1.ignoringNextTurn = true ∧
    ((V1.runMsgs (V1.sendControlMessage s) ms).1.activeSources
        = (V1.sendControlMessage s).activeSources ∨
      (V1.runMsgs (V1.sendControlMessage s) ms).1.activeSources = []) := by
  obtain ⟨a, b, c⟩ := V1.runMsgs_ignoring ms (V1.sendControlMessage s) rfl h
  exact ⟨rfl, a, b, c⟩

/-- C7 witness: a control message followed by an acknowledgment transcript,
an audio chunk and a user transcription, none marked reply-complete,
surfaces no transcript event. -/
theorem c7_witness :
    (V1.runMsgs (V1.sendControlMessage V1.initState)
        [(0, V1.modelMsg 7), (0, V1.audioMsg 1), (1, V1.userMsg 9)]).2 = [] :=
  (c7_control_suppression V1.initState
      [(0, V1.modelMsg 7), (0, V1.audioMsg 1), (1, V1.userMsg 9)]
      (by decide)).2.1

/-- C8 counterexample: a genuine user utterance (an input transcription
message) arriving while suppression is pending does not clear the flag
early — the flag is still set afterwards, and the utterance itself is
dropped. -/
theorem c8_counterexample :
    (V1.onmessage (V1.sendControlMessage V1.initState) 0 (V1.userMsg 5)).1.ignoringNextTurn
        = true ∧
    (V1.onmessage (V1.sendControlMessage V1.initState) 0 (V1.userMsg 5)).2 = [] := by
  constructor <;> simp [V1.onmessage, V1.userMsg, V1.sendControlMessage, V1.initState]

/-- C8 (amended): while suppression is pending, processing one inbound
message clears the flag exactly when that message signals the reply
complete; no other inbound evidence — in particular a new user utterance —
clears it early. -/
theorem c8_suppression_cleared_only_on_complete (s : V1.State) (now : ℚ) (m : V1.Msg)
    (h : s.ignoringNextTurn = true) :
    ((V1.onmessage s now m).1.ignoringNextTurn = false ↔ m.turnComplete = true) := by
  rcases m with ⟨tc, ot, it, ad, ir⟩
  cases tc <;> cases ad <;> cases ir <;>
    (simp_all [V1.onmessage, V1.stopAudioPlayback, V1.scheduleChunk];
      try (split_ifs <;> simp_all))

/-- C8 witness: from a suppressing state, a reply-complete message does clear
the flag. -/
theorem c8_witness :
    (V1.onmessage (V1.sendControlMessage V1.initState) 0
        V1.turnCompleteMsg).1.ignoringNextTurn = false :=
  (c8_suppression_cleared_only_on_complete (V1.sendControlMessage V1.initState) 0
      V1.turnCompleteMsg rfl).mpr rfl

/-- C9: while suppression is pending and the reply not yet complete, an
inbound message of any kind — user input transcription as much as model
output transcription — emits no transcript event, so nothing changes the
transcript state until the flag is cleared. -/
theorem c9_transcript_frozen_while_suppressing (s : V1.State) (now : ℚ) (m : V1.Msg)
    (h1 : s.ignoringNextTurn = true) (h2 : m.turnComplete = false) :
    (V1.onmessage s now m).2 = [] :=
  (V1.onmessage_ignoring s now m h1 h2).1

/-- C9 witness: a user input transcription arriving during suppression
produces no transcript event. -/
theorem c9_witness :
    (V1.onmessage (V1.sendControlMessage V1.initState) 0 (V1.userMsg 3)).2 = [] :=
  c9_transcript_frozen_while_suppressing (V1.sendControlMessage V1.initState) 0
    (V1.userMsg 3) rfl rfl

/-- C10: in the speed variant a change of the speed setting rewrites only
`audioSpeedRef`: every already-scheduled segment keeps the rate sampled when
it was enqueued and the cursor keeps its already-advanced value; an enqueue
after the change uses the new speed for the new segment alone. -/
theorem c10_speed_frame_effect :
    (∀ (t : Speed.State) (v : ℚ),
        (Speed.setSpeed t v).activeSources = t.activeSources ∧
        (Speed.setSpeed t v).nextStartTime = t.nextStartTime) ∧
    (∀ (t : Speed.State) (now d : ℚ),
        (Speed.onmessage t now (Speed.audioMsg d)).1.activeSources
            = t.activeSources ++ [⟨max t.nextStartTime now, d, t.audioSpeed⟩] ∧
        (Speed.onmessage t now (Speed.audioMsg d)).1.nextStartTime
            = max t.nextStartTime now + d / t.audioSpeed) ∧
    (∀ (t : Speed.State) (v now d : ℚ),
        (Speed.onmessage (Speed.setSpeed t v) now (Speed.audioMsg d)).1.activeSources
            = t.activeSources ++ [⟨max t.nextStartTime now, d, v⟩]) := by
  refine ⟨fun t v => ⟨rfl, rfl⟩, ?_, ?_⟩
  · intro t now d
    constructor <;> simp [Speed.onmessage, Speed.audioMsg]
  · intro t v now d
    simp [Speed.onmessage, Speed.audioMsg, Speed.setSpeed]
